import Mathlib

/-!
Verification development for the `game_day_scraper` repository
(`src/scraper.py`).  The Python code is shallowly embedded: strings become
`List Char`/`String`, the regular expression `game_url_pattern` becomes a
deterministic matcher (faithful because every backtracking point of the
pattern is cut off by a non-overlapping follower character), the retry
loops of `Scraper.download` and `GameScraper.files` become recursive
functions producing an event trace, and the filesystem is an abstract set
of existing paths.
-/

namespace GameDayScraper

/-! ### Character classes of the pattern

In Python 2, `\d` on a byte-string pattern without `re.UNICODE` is exactly
`[0-9]`, and `[a-z]` is the ASCII range. -/

def isDigitC (c : Char) : Bool := '0' ≤ c && c ≤ '9'

def isLowerC (c : Char) : Bool := 'a' ≤ c && c ≤ 'z'

/-! ### Embedding of `game_url_pattern` (src/scraper.py line 162)

`game_url_pattern = re.compile('gid_([\d]+)_([\d]+)_([\d]+)_([a-z]{3})mlb_([a-z]{3})mlb_(\d)/')`
used through `re.match`, i.e. anchored at the start of the entry only; the
rest of the entry after the matched text is ignored.  Each greedy `[\d]+`
is followed by a non-digit literal (`_`), and `[a-z]{3}` is fixed-width,
so the deterministic maximal-munch parser below has exactly the same
matches and groups as the backtracking regex engine. -/

def gidLit : List Char := ['g', 'i', 'd', '_']

def mlbLit : List Char := ['m', 'l', 'b', '_']

/-- Consume an exact literal from the front of the input; `none` when the
input does not start with it. -/
def dropLit : List Char → List Char → Option (List Char)
  | [], s => some s
  | _ :: _, [] => none
  | l :: ls, c :: cs => if c = l then dropLit ls cs else none

/-- Greedy `([\d]+)`: the maximal non-empty run of digits at the front of
the input, with the remainder.  Faithful to the regex because in the
pattern every `[\d]+` is followed by a non-digit literal, so the engine
never keeps a shorter-than-maximal run. -/
def takeDigitsPlus (s : List Char) : Option (List Char × List Char) :=
  let d := s.takeWhile isDigitC
  if d.isEmpty then none else some (d, s.dropWhile isDigitC)

/-- Fixed-width `([a-z]{3})`: exactly three lowercase letters. -/
def takeLower3 (s : List Char) : Option (List Char × List Char) :=
  match s with
  | a :: b :: c :: r => if isLowerC a && isLowerC b && isLowerC c then some ([a, b, c], r) else none
  | _ => none

/-- Single-character `(\d)`: one digit. -/
def takeDigit1 (s : List Char) : Option (Char × List Char) :=
  match s with
  | c :: r => if isDigitC c then some (c, r) else none
  | [] => none

/-- The six capture groups of `game_url_pattern`. -/
structure GameMatch where
  d1 : List Char
  d2 : List Char
  d3 : List Char
  visitor : List Char
  home : List Char
  gameNo : Char
deriving Repr, DecidableEq

/-- The text of `match.group(0)`: the full text matched by the pattern. -/
def groupZero (m : GameMatch) : List Char :=
  gidLit ++ m.d1 ++ '_' :: m.d2 ++ '_' :: m.d3 ++ '_' :: m.visitor ++
    mlbLit ++ m.home ++ mlbLit ++ [m.gameNo, '/']

/-- Embedding of `game_url_pattern.match entry`: the capture groups together with the
unconsumed remainder of the entry, or `none` when the pattern does not
match at the start of the entry. -/
def matchGame (s : List Char) : Option (GameMatch × List Char) :=
  (dropLit gidLit s).bind fun r0 =>
  (takeDigitsPlus r0).bind fun (d1, r1) =>
  (dropLit ['_'] r1).bind fun r2 =>
  (takeDigitsPlus r2).bind fun (d2, r3) =>
  (dropLit ['_'] r3).bind fun r4 =>
  (takeDigitsPlus r4).bind fun (d3, r5) =>
  (dropLit ['_'] r5).bind fun r6 =>
  (takeLower3 r6).bind fun (v, r7) =>
  (dropLit mlbLit r7).bind fun r8 =>
  (takeLower3 r8).bind fun (h, r9) =>
  (dropLit mlbLit r9).bind fun r10 =>
  (takeDigit1 r10).bind fun (n, r11) =>
  (dropLit ['/'] r11).map fun rest => (⟨d1, d2, d3, v, h, n⟩, rest)

/-! ### Embedding of `os.path.split(...)[0]` and `urljoin`

Python 2 `posixpath.split`:
`i = p.rfind('/') + 1; head = p[:i]`, and when `head` is non-empty and not
all slashes, trailing slashes are stripped from it. -/

/-- The `head` component of `posixpath.split`. -/
def posixSplitHead (l : List Char) : List Char :=
  let head := (l.reverse.dropWhile (fun c => c ≠ '/')).reverse
  if head.isEmpty then head
  else if head.all (fun c => c = '/') then head
  else (head.reverse.dropWhile (fun c => c = '/')).reverse

/-- Model of `urljoin base rel` for a plain relative reference (no scheme, no `.`
or `..` segments, not starting with `/`): everything of the base up to and
including its last `/`, followed by the relative reference.  This covers
both uses in `GameScraper.files`, where the base always ends in `/`. -/
def urljoinRel (base rel : String) : String :=
  String.mk ((base.data.reverse.dropWhile (fun c => c ≠ '/')).reverse ++ rel.data)

/-! ### Embedding of the descriptor-building loop of `GameScraper.files`
(src/scraper.py lines 222-239). -/

/-- One element of `self.files`: the dict built per matching entry. -/
structure FileDesc where
  directory : String
  date : String
  visitor : String
  home : String
  gameNo : String
  url : String
  file : String
deriving Repr, DecidableEq

/-- The dict built at lines 226-235 for one successful match. -/
def buildFile (baseUrl date : String) (m : GameMatch) : FileDesc :=
  let dir := String.mk (groupZero m)
  { directory := dir
    date := date
    visitor := String.mk m.visitor
    home := String.mk m.home
    gameNo := String.mk [m.gameNo]
    url := urljoinRel (urljoinRel baseUrl dir) "inning/inning_all.xml"
    file := String.mk (posixSplitHead dir.data) ++ ".xml" }

/-- The loop over `parser.entries`: a descriptor per entry matched by
`game_url_pattern`, in listing order; non-matching entries contribute
nothing. -/
def filesOfEntries (baseUrl date : String) (entries : List String) : List FileDesc :=
  entries.filterMap (fun e => (matchGame e.data).map (fun p => buildFile baseUrl date p.1))

/-! ### The entry grammar claimed by the spec, for comparison

The spec claims a descriptor is produced exactly when the entry has the
exact (whole-string) shape `gid_YYYY_MM_DD_vvvmlb_hhhmlb_N/` with
zero-padded numeric date groups.  The checker below follows that wording:
four, two and two digit characters for `YYYY`, `MM`, `DD`, three lowercase
letters for each club code, one digit for `N`, and nothing after the
trailing `/`. -/

/-- Consume exactly `n` characters satisfying `p`. -/
def readN (p : Char → Bool) : Nat → List Char → Option (List Char)
  | 0, s => some s
  | _ + 1, [] => none
  | k + 1, c :: s => if p c then readN p k s else none

/-- Whether the whole entry has the exact shape the spec claims
(zero-padded `YYYY_MM_DD`, three-letter club codes, single-digit game
number, trailing `/`, nothing after it).  This definition follows the
spec sentence, not the code; it is compared against `matchGame`. -/
def specExactShapeB (s : List Char) : Bool :=
  let r : Option (List Char) := do
    let r ← dropLit gidLit s
    let r ← readN isDigitC 4 r
    let r ← dropLit ['_'] r
    let r ← readN isDigitC 2 r
    let r ← dropLit ['_'] r
    let r ← readN isDigitC 2 r
    let r ← dropLit ['_'] r
    let r ← readN isLowerC 3 r
    let r ← dropLit mlbLit r
    let r ← readN isLowerC 3 r
    let r ← dropLit mlbLit r
    let r ← readN isDigitC 1 r
    dropLit ['/'] r
  match r with
  | some [] => true
  | _ => false

/-- The language actually accepted by `game_url_pattern` under `re.match`:
the entry starts with `gid_`, three non-empty digit runs (any length),
two three-letter lowercase club codes, a single digit, a `/`, and then an
arbitrary remainder (the match is anchored at the start only). -/
def GamePrefixShape (s : List Char) : Prop :=
  ∃ d1 d2 d3 v h n rest,
    s = gidLit ++ d1 ++ '_' :: d2 ++ '_' :: d3 ++ '_' :: v ++
      mlbLit ++ h ++ mlbLit ++ n :: '/' :: rest ∧
    d1 ≠ [] ∧ (∀ x ∈ d1, isDigitC x = true) ∧
    d2 ≠ [] ∧ (∀ x ∈ d2, isDigitC x = true) ∧
    d3 ≠ [] ∧ (∀ x ∈ d3, isDigitC x = true) ∧
    v.length = 3 ∧ (∀ x ∈ v, isLowerC x = true) ∧
    h.length = 3 ∧ (∀ x ∈ h, isLowerC x = true) ∧
    isDigitC n = true

/-! ### Soundness and completeness of the matcher embedding -/

theorem dropLit_sound : ∀ (lit s r : List Char), dropLit lit s = some r → s = lit ++ r := by
  intro lit
  induction lit with
  | nil => intro s r hsr; simp only [dropLit, Option.some.injEq] at hsr; simp [hsr]
  | cons l ls ih =>
    intro s r hsr
    cases s with
    | nil => simp [dropLit] at hsr
    | cons c cs =>
      simp only [dropLit] at hsr
      split at hsr
      · next heq => subst heq; simp [ih cs r hsr]
      · simp at hsr

theorem dropLit_run (lit r : List Char) : dropLit lit (lit ++ r) = some r := by
  induction lit with
  | nil => rfl
  | cons l ls ih => simp [dropLit, ih]

theorem dropLit_cons (c : Char) (r : List Char) : dropLit [c] (c :: r) = some r := by
  simp [dropLit]

theorem takeDigitsPlus_sound {s d r : List Char} (hsr : takeDigitsPlus s = some (d, r)) :
    s = d ++ r ∧ d ≠ [] ∧ ∀ x ∈ d, isDigitC x = true := by
  simp only [takeDigitsPlus] at hsr
  split at hsr
  · simp at hsr
  · next hne =>
    obtain ⟨hd, hr⟩ : s.takeWhile isDigitC = d ∧ s.dropWhile isDigitC = r := by
      simpa using hsr
    refine ⟨by rw [← hd, ← hr, List.takeWhile_append_dropWhile], ?_, ?_⟩
    · intro hnil
      exact hne (by simp [hd, hnil])
    · intro x hx
      exact List.mem_takeWhile_imp (hd ▸ hx)

theorem takeWhile_append_run {p : Char → Bool} {d : List Char} {c : Char} (r : List Char)
    (ha : ∀ x ∈ d, p x = true) (hc : p c = false) :
    (d ++ c :: r).takeWhile p = d ∧ (d ++ c :: r).dropWhile p = c :: r := by
  induction d with
  | nil => simp [List.takeWhile_cons, List.dropWhile_cons, hc]
  | cons a t ih =>
    have ha' : p a = true := ha a (List.mem_cons_self a t)
    have iht := ih (fun x hx => ha x (List.mem_cons_of_mem a hx))
    simp [List.takeWhile_cons, List.dropWhile_cons, ha', iht.1, iht.2]

theorem takeDigitsPlus_run {d : List Char} (c : Char) (r : List Char)
    (hd : d ≠ []) (ha : ∀ x ∈ d, isDigitC x = true) (hc : isDigitC c = false) :
    takeDigitsPlus (d ++ c :: r) = some (d, c :: r) := by
  obtain ⟨ht, hdr⟩ := takeWhile_append_run r ha hc
  have hde : d.isEmpty = false := by
    cases d with
    | nil => exact absurd rfl hd
    | cons a t => rfl
  simp [takeDigitsPlus, ht, hdr, hde]

theorem takeLower3_sound {s v r : List Char} (hsr : takeLower3 s = some (v, r)) :
    s = v ++ r ∧ v.length = 3 ∧ ∀ x ∈ v, isLowerC x = true := by
  match s with
  | [] => simp [takeLower3] at hsr
  | [a] => simp [takeLower3] at hsr
  | [a, b] => simp [takeLower3] at hsr
  | a :: b :: c :: t =>
    simp only [takeLower3] at hsr
    split at hsr
    · next hl =>
      obtain ⟨hv, hr⟩ : [a, b, c] = v ∧ t = r := by simpa using hsr
      subst hv; subst hr
      refine ⟨rfl, rfl, ?_⟩
      intro x hx
      simp only [List.mem_cons, List.not_mem_nil, or_false] at hx
      simp only [Bool.and_eq_true] at hl
      rcases hx with rfl | rfl | rfl
      · exact hl.1.1
      · exact hl.1.2
      · exact hl.2
    · simp at hsr

theorem takeDigit1_sound {s r : List Char} {n : Char} (hsr : takeDigit1 s = some (n, r)) :
    s = n :: r ∧ isDigitC n = true := by
  match s with
  | [] => simp [takeDigit1] at hsr
  | c :: t =>
    simp only [takeDigit1] at hsr
    split at hsr
    · next hdig =>
      obtain ⟨hn, hr⟩ : c = n ∧ t = r := by simpa using hsr
      subst hn; subst hr
      exact ⟨rfl, hdig⟩
    · simp at hsr

theorem matchGame_sound {s : List Char} {m : GameMatch} {rest : List Char}
    (hmr : matchGame s = some (m, rest)) : GamePrefixShape s := by
  simp only [matchGame, Option.bind_eq_some] at hmr
  obtain ⟨r0, h0, ⟨d1, r1⟩, h1, hmr⟩ := hmr
  simp only [Option.bind_eq_some] at hmr
  obtain ⟨r2, h2, ⟨d2, r3⟩, h3, hmr⟩ := hmr
  simp only [Option.bind_eq_some] at hmr
  obtain ⟨r4, h4, ⟨d3, r5⟩, h5, hmr⟩ := hmr
  simp only [Option.bind_eq_some] at hmr
  obtain ⟨r6, h6, ⟨v, r7⟩, h7, hmr⟩ := hmr
  simp only [Option.bind_eq_some] at hmr
  obtain ⟨r8, h8, ⟨hm, r9⟩, h9, hmr⟩ := hmr
  simp only [Option.bind_eq_some] at hmr
  obtain ⟨r10, h10, ⟨n, r11⟩, h11, hmr⟩ := hmr
  simp only [Option.map_eq_some'] at hmr
  obtain ⟨rest', h12, hmr⟩ := hmr
  obtain ⟨hm_eq, hrest⟩ : (⟨d1, d2, d3, v, hm, n⟩ : GameMatch) = m ∧ rest' = rest := by
    simpa [Prod.ext_iff] using hmr
  obtain ⟨e1, hd1, ha1⟩ := takeDigitsPlus_sound h1
  obtain ⟨e3, hd2, ha2⟩ := takeDigitsPlus_sound h3
  obtain ⟨e5, hd3, ha3⟩ := takeDigitsPlus_sound h5
  obtain ⟨e7, hv3, hva⟩ := takeLower3_sound h7
  obtain ⟨e9, hh3, hha⟩ := takeLower3_sound h9
  obtain ⟨e11, hn⟩ := takeDigit1_sound h11
  have e0 := dropLit_sound _ _ _ h0
  have e2 := dropLit_sound _ _ _ h2
  have e4 := dropLit_sound _ _ _ h4
  have e6 := dropLit_sound _ _ _ h6
  have e8 := dropLit_sound _ _ _ h8
  have e10 := dropLit_sound _ _ _ h10
  have e12 := dropLit_sound _ _ _ h12
  refine ⟨d1, d2, d3, v, hm, n, rest, ?_, hd1, ha1, hd2, ha2, hd3, ha3, hv3, hva, hh3, hha, hn⟩
  subst hrest
  rw [e0, e1, e2, e3, e4, e5, e6, e7, e8, e9, e10, e11, e12]
  simp

theorem takeLower3_run {a b c : Char} (r : List Char)
    (ha : isLowerC a = true) (hb : isLowerC b = true) (hc : isLowerC c = true) :
    takeLower3 (a :: b :: c :: r) = some ([a, b, c], r) := by
  simp [takeLower3, ha, hb, hc]

theorem takeDigit1_run {n : Char} (r : List Char) (hn : isDigitC n = true) :
    takeDigit1 (n :: r) = some (n, r) := by
  simp [takeDigit1, hn]

theorem matchGame_complete {d1 d2 d3 : List Char} {a b c x y z n : Char} (rest : List Char)
    (hd1 : d1 ≠ []) (ha1 : ∀ u ∈ d1, isDigitC u = true)
    (hd2 : d2 ≠ []) (ha2 : ∀ u ∈ d2, isDigitC u = true)
    (hd3 : d3 ≠ []) (ha3 : ∀ u ∈ d3, isDigitC u = true)
    (hla : isLowerC a = true) (hlb : isLowerC b = true) (hlc : isLowerC c = true)
    (hlx : isLowerC x = true) (hly : isLowerC y = true) (hlz : isLowerC z = true)
    (hn : isDigitC n = true) :
    matchGame (gidLit ++ d1 ++ '_' :: d2 ++ '_' :: d3 ++ '_' :: [a, b, c] ++
      mlbLit ++ [x, y, z] ++ mlbLit ++ n :: '/' :: rest) =
      some (⟨d1, d2, d3, [a, b, c], [x, y, z], n⟩, rest) := by
  have h2 := takeDigitsPlus_run '_'
      (a :: b :: c :: (mlbLit ++ x :: y :: z :: (mlbLit ++ n :: '/' :: rest)))
      hd3 ha3 (by decide)
  have h1 := takeDigitsPlus_run '_'
      (d3 ++ '_' :: a :: b :: c :: (mlbLit ++ x :: y :: z :: (mlbLit ++ n :: '/' :: rest)))
      hd2 ha2 (by decide)
  have h0 := takeDigitsPlus_run '_'
      (d2 ++ '_' :: (d3 ++ '_' :: a :: b :: c ::
        (mlbLit ++ x :: y :: z :: (mlbLit ++ n :: '/' :: rest))))
      hd1 ha1 (by decide)
  simp only [matchGame, List.cons_append, List.append_assoc, List.nil_append]
  rw [dropLit_run]
  simp only [Option.some_bind]
  rw [h0]
  simp only [Option.some_bind]
  rw [dropLit_cons]
  simp only [Option.some_bind]
  rw [h1]
  simp only [Option.some_bind]
  rw [dropLit_cons]
  simp only [Option.some_bind]
  rw [h2]
  simp only [Option.some_bind]
  rw [dropLit_cons]
  simp only [Option.some_bind]
  rw [takeLower3_run _ hla hlb hlc]
  simp only [Option.some_bind]
  rw [dropLit_run]
  simp only [Option.some_bind]
  rw [takeLower3_run _ hlx hly hlz]
  simp only [Option.some_bind]
  rw [dropLit_run]
  simp only [Option.some_bind]
  rw [takeDigit1_run _ hn]
  simp only [Option.some_bind]
  rw [dropLit_cons]
  simp only [Option.map_some']

theorem matchGame_isSome_iff (s : List Char) :
    (matchGame s).isSome = true ↔ GamePrefixShape s := by
  constructor
  · intro hsome
    obtain ⟨⟨m, rest⟩, hmr⟩ := Option.isSome_iff_exists.mp hsome
    exact matchGame_sound hmr
  · rintro ⟨d1, d2, d3, v, hm, n, rest, hs, hd1, ha1, hd2, ha2, hd3, ha3, hv3, hva, hh3, hha, hn⟩
    obtain ⟨a, b, c, rfl⟩ := List.length_eq_three.mp hv3
    obtain ⟨x, y, z, rfl⟩ := List.length_eq_three.mp hh3
    subst hs
    rw [matchGame_complete rest hd1 ha1 hd2 ha2 hd3 ha3
      (hva a (by simp)) (hva b (by simp)) (hva c (by simp))
      (hha x (by simp)) (hha y (by simp)) (hha z (by simp)) hn]
    rfl

end GameDayScraper

namespace GameDayScraper

/-! ### Claims C3 and C6 -/

/-- C3, counterexample: on the scenario listing, the destination file
names produced by the code are not `2015_05_07_balmlb_nyamlb_1.xml` and
`2015_05_07_bosmlb_tbamlb_2.xml` as the claim states: the code keeps the
`gid_` head of the directory name (`os.path.split(directory)[0]` only
strips the trailing `/`, it does not remove `gid_`). -/
theorem c3_destination_names_counterexample :
    ¬ ((filesOfEntries
        "http://gd2.mlb.com/components/game/mlb/year_2015/month_05/day_07/" "2015-05-07"
        ["gid_2015_05_07_balmlb_nyamlb_1/", "readme.txt",
         "gid_2015_05_07_bosmlb_tbamlb_2/"]).map FileDesc.file =
      ["2015_05_07_balmlb_nyamlb_1.xml", "2015_05_07_bosmlb_tbamlb_2.xml"]) := by
  decide

/-- C3 (amended): for the listing
`["gid_2015_05_07_balmlb_nyamlb_1/", "readme.txt", "gid_2015_05_07_bosmlb_tbamlb_2/"]`
exactly 2 descriptors are produced, in listing order, with extracted
fields `visitor="bal", home="nya", game_no="1"` and
`visitor="bos", home="tba", game_no="2"`, and the destination file names
are the directory names with the trailing separator stripped suffixed
with `.xml`, i.e. `gid_2015_05_07_balmlb_nyamlb_1.xml` and
`gid_2015_05_07_bosmlb_tbamlb_2.xml` (the `gid_` head is kept). -/
theorem c3_scenario_descriptors (base date : String) :
    (filesOfEntries base date
        ["gid_2015_05_07_balmlb_nyamlb_1/", "readme.txt",
         "gid_2015_05_07_bosmlb_tbamlb_2/"]).length = 2 ∧
    (filesOfEntries base date
        ["gid_2015_05_07_balmlb_nyamlb_1/", "readme.txt",
         "gid_2015_05_07_bosmlb_tbamlb_2/"]).map FileDesc.directory =
      ["gid_2015_05_07_balmlb_nyamlb_1/", "gid_2015_05_07_bosmlb_tbamlb_2/"] ∧
    (filesOfEntries base date
        ["gid_2015_05_07_balmlb_nyamlb_1/", "readme.txt",
         "gid_2015_05_07_bosmlb_tbamlb_2/"]).map FileDesc.visitor = ["bal", "bos"] ∧
    (filesOfEntries base date
        ["gid_2015_05_07_balmlb_nyamlb_1/", "readme.txt",
         "gid_2015_05_07_bosmlb_tbamlb_2/"]).map FileDesc.home = ["nya", "tba"] ∧
    (filesOfEntries base date
        ["gid_2015_05_07_balmlb_nyamlb_1/", "readme.txt",
         "gid_2015_05_07_bosmlb_tbamlb_2/"]).map FileDesc.gameNo = ["1", "2"] ∧
    (filesOfEntries base date
        ["gid_2015_05_07_balmlb_nyamlb_1/", "readme.txt",
         "gid_2015_05_07_bosmlb_tbamlb_2/"]).map FileDesc.file =
      ["gid_2015_05_07_balmlb_nyamlb_1.xml", "gid_2015_05_07_bosmlb_tbamlb_2.xml"] :=
  ⟨rfl, rfl, rfl, rfl, rfl, rfl⟩

/-- C6, counterexample: the entry `gid_2015_05_07_balmlb_nyamlb_1/junk`
is not of the exact claimed shape (there is trailing text after the
`/`), yet the matcher produces a descriptor for it, because `re.match`
only anchors the pattern at the start of the entry. -/
theorem c6_exact_shape_counterexample :
    (filesOfEntries "http://gd2.mlb.com/components/game/mlb/year_2015/month_05/day_07/"
        "2015-05-07" ["gid_2015_05_07_balmlb_nyamlb_1/junk"]).length = 1 ∧
    specExactShapeB "gid_2015_05_07_balmlb_nyamlb_1/junk".data = false := by
  decide

/-- C6 (amended): a descriptor is produced for an entry exactly when the
entry has a PREFIX of the shape `gid_D+_D+_D+_vvvmlb_hhhmlb_N/`, where
the three `D+` are non-empty digit runs of any length (no fixed
zero-padded width), `vvv`/`hhh` are exactly three lowercase letters and
`N` is a single digit; anything may follow the trailing `/`.  Entries
without such a prefix are silently skipped, each entry contributing its
descriptors independently of the rest of the listing. -/
theorem c6_matcher_grammar (base date e : String) (es : List String) :
    (filesOfEntries base date [e] ≠ [] ↔ GamePrefixShape e.data) ∧
    filesOfEntries base date (e :: es) =
      filesOfEntries base date [e] ++ filesOfEntries base date es := by
  constructor
  · rw [← matchGame_isSome_iff]
    cases h : matchGame e.data with
    | none => simp [filesOfEntries, h]
    | some p => simp [filesOfEntries, h]
  · cases h : matchGame e.data with
    | none => simp [filesOfEntries, List.filterMap_cons, h]
    | some p => simp [filesOfEntries, List.filterMap_cons, h]

end GameDayScraper

namespace GameDayScraper

/-! ### Embedding of `Scraper.download` (src/scraper.py lines 83-160)

The filesystem is abstracted to the set of existing paths (a duplicate
free `List String`).  One network attempt (the `try` body, lines
108-145) either succeeds, fails before the temporary file is opened
(`requests.get`/`raise_for_status`), or fails while streaming the body
(`TimeoutError` or a stream error), in which case the partial temporary
file exists.  The retry loop is driven by `left = retry_attempts -
attempt`, the number of further attempts before `attempt >=
self.retry_attempts` holds; the loop re-raises the current error when it
does. -/

inductive AttemptError
  | transport
  | timeout
deriving Repr, DecidableEq

inductive AttemptRes
  | success
  | failBeforeTmp (e : AttemptError)
  | failAfterTmp (e : AttemptError)
deriving Repr, DecidableEq

/-- The error carried by a failed attempt (`transport` as a default for
`success`, which the lemmas exclude). -/
def errOf : AttemptRes → AttemptError
  | .success => .transport
  | .failBeforeTmp e => e
  | .failAfterTmp e => e

inductive Ev
  | checkExists (target : String)
  | httpGet (url : String)
  | createTmp (tmp : String)
  | removeTmp (tmp : String)
  | sleep
  | renameFile (tmp target : String)
deriving Repr, DecidableEq

inductive DlOutcome
  | skipped
  | completed
  | failed (e : AttemptError)
deriving Repr, DecidableEq

def fsInsert (p : String) (fs : List String) : List String :=
  if p ∈ fs then fs else p :: fs

def fsRemove (p : String) (fs : List String) : List String :=
  fs.filter (fun q => q ≠ p)

/-- Filesystem effect of one event. -/
def applyEv (fs : List String) : Ev → List String
  | .createTmp p => fsInsert p fs
  | .removeTmp p => fsRemove p fs
  | .renameFile tmp target => fsInsert target (fsRemove tmp fs)
  | _ => fs

def replayFs (fs : List String) (evs : List Ev) : List String :=
  evs.foldl applyEv fs

/-- Events of `os.remove(tmp_file)` guarded by `os.path.isfile(tmp_file)`
(line 147). -/
def remEvs (tmp : String) (fs : List String) : List Ev :=
  if tmp ∈ fs then [Ev.removeTmp tmp] else []

/-- The sleep at line 154, executed on every caught failure when
`retry_attempts > 0`. -/
def sleepIf (ra : Nat) : List Ev :=
  if 0 < ra then [Ev.sleep] else []

/-- The events of the `except` handler (lines 146-155) when the attempt
failed before the temporary file was opened: the failed GET, the
conditional removal, and the sleep at line 154 (executed when
`retry_attempts > 0`). -/
def failEvsB (ra : Nat) (url tmp : String) (fs : List String) : List Ev :=
  Ev.httpGet url :: (remEvs tmp fs ++ sleepIf ra)

/-- Likewise when the attempt failed while streaming the body: the
temporary file was created first. -/
def failEvsA (ra : Nat) (url tmp : String) (fs : List String) : List Ev :=
  Ev.httpGet url :: Ev.createTmp tmp :: (remEvs tmp (fsInsert tmp fs) ++ sleepIf ra)

/-- The `while True` retry loop (lines 106-158) followed by the rename at
line 160.  `left` is `ra - attempt`; the code raises when
`attempt + 1 >= ra`, i.e. when `left <= 1` (also when `ra = 0`, where
`left = 0`).  On failure the handler removes the temporary file if
present, sleeps once when `ra > 0` (line 154), and, when the loop
continues, sleeps once more (line 158). -/
def downloadLoop (outs : Nat → AttemptRes) (ra : Nat) (url tmp target : String) :
    Nat → Nat → List String → List Ev × List String × DlOutcome
  | 0, attempt, fs =>
    match outs (attempt + 1) with
    | .success =>
      ([Ev.httpGet url, Ev.createTmp tmp, Ev.renameFile tmp target],
        fsInsert target (fsRemove tmp (fsInsert tmp fs)), .completed)
    | .failBeforeTmp e => (failEvsB ra url tmp fs, fsRemove tmp fs, .failed e)
    | .failAfterTmp e => (failEvsA ra url tmp fs, fsRemove tmp (fsInsert tmp fs), .failed e)
  | left + 1, attempt, fs =>
    match outs (attempt + 1) with
    | .success =>
      ([Ev.httpGet url, Ev.createTmp tmp, Ev.renameFile tmp target],
        fsInsert target (fsRemove tmp (fsInsert tmp fs)), .completed)
    | .failBeforeTmp e =>
      if left = 0 then (failEvsB ra url tmp fs, fsRemove tmp fs, .failed e)
      else
        let r := downloadLoop outs ra url tmp target left (attempt + 1) (fsRemove tmp fs)
        (failEvsB ra url tmp fs ++ Ev.sleep :: r.1, r.2.1, r.2.2)
    | .failAfterTmp e =>
      if left = 0 then (failEvsA ra url tmp fs, fsRemove tmp (fsInsert tmp fs), .failed e)
      else
        let r := downloadLoop outs ra url tmp target left (attempt + 1)
          (fsRemove tmp (fsInsert tmp fs))
        (failEvsA ra url tmp fs ++ Ev.sleep :: r.1, r.2.1, r.2.2)

/-- Model of `os.path.join(self.dest, file['file'])` for our use (no absolute
second component). -/
def pathJoin (d p : String) : String := d ++ "/" ++ p

/-- One iteration of the `for file in self.files` loop (lines 86-160):
the existence check at lines 93-98 (skip unless `refresh`), then the
retry loop and the publishing rename. -/
def downloadFile (refresh : Bool) (ra : Nat) (outs : Nat → AttemptRes) (dest : String)
    (f : FileDesc) (fs : List String) : List Ev × List String × DlOutcome :=
  let target := pathJoin dest f.file
  if target ∈ fs && !refresh then
    ([Ev.checkExists target], fs, .skipped)
  else
    let r := downloadLoop outs ra f.url (target ++ ".part") target ra 0 fs
    (Ev.checkExists target :: r.1, r.2.1, r.2.2)

/-- The whole `Scraper.download` (lines 83-160): the descriptors are
processed sequentially in listing order; a `raise` from the retry loop
propagates out of the `for` loop, so processing stops at the first
terminal failure (outcome `some e`). -/
def downloadAll (refresh : Bool) (ra : Nat) (outs : Nat → Nat → AttemptRes) (dest : String) :
    Nat → List FileDesc → List String → List Ev × List String × Option AttemptError
  | _, [], fs => ([], fs, none)
  | i, f :: rest, fs =>
    let r := downloadFile refresh ra (outs i) dest f fs
    match r.2.2 with
    | .failed e => (r.1, r.2.1, some e)
    | _ =>
      let r2 := downloadAll refresh ra outs dest (i + 1) rest r.2.1
      (r.1 ++ r2.1, r2.2.1, r2.2.2)

def countGets (t : List Ev) : Nat :=
  t.countP (fun e => match e with | .httpGet _ => true | _ => false)

def countSleeps (t : List Ev) : Nat :=
  t.countP (fun e => match e with | .sleep => true | _ => false)

/-- The cleanup-ordering invariant of C8: whenever a sleep happens, the
temporary file is not on disk at that moment (it was removed before the
handler sleeps). -/
def tmpAbsentAtSleeps (tmp : String) (fs : List String) (t : List Ev) : Prop :=
  ∀ k (hk : k < t.length), t[k] = Ev.sleep → tmp ∉ replayFs fs (t.take k)

/-! ### Counting and filesystem lemmas -/

theorem countGets_append (s t : List Ev) : countGets (s ++ t) = countGets s + countGets t := by
  simp [countGets, List.countP_append]

theorem countSleeps_append (s t : List Ev) :
    countSleeps (s ++ t) = countSleeps s + countSleeps t := by
  simp [countSleeps, List.countP_append]

theorem countGets_cons_get (url : String) (t : List Ev) :
    countGets (Ev.httpGet url :: t) = countGets t + 1 := by
  simp [countGets, List.countP_cons]

theorem countGets_cons_createTmp (p : String) (t : List Ev) :
    countGets (Ev.createTmp p :: t) = countGets t := by
  simp [countGets, List.countP_cons]

theorem countGets_cons_sleep (t : List Ev) : countGets (Ev.sleep :: t) = countGets t := by
  simp [countGets, List.countP_cons]

theorem countGets_remEvs (tmp : String) (fs : List String) : countGets (remEvs tmp fs) = 0 := by
  unfold remEvs
  split <;> rfl

theorem countGets_sleepIf (ra : Nat) : countGets (sleepIf ra) = 0 := by
  unfold sleepIf
  split <;> rfl

theorem countSleeps_cons_get (url : String) (t : List Ev) :
    countSleeps (Ev.httpGet url :: t) = countSleeps t := by
  simp [countSleeps, List.countP_cons]

theorem countSleeps_cons_createTmp (p : String) (t : List Ev) :
    countSleeps (Ev.createTmp p :: t) = countSleeps t := by
  simp [countSleeps, List.countP_cons]

theorem countSleeps_cons_sleep (t : List Ev) :
    countSleeps (Ev.sleep :: t) = countSleeps t + 1 := by
  simp [countSleeps, List.countP_cons]

theorem countSleeps_remEvs (tmp : String) (fs : List String) :
    countSleeps (remEvs tmp fs) = 0 := by
  unfold remEvs
  split <;> rfl

theorem countSleeps_sleepIf (ra : Nat) :
    countSleeps (sleepIf ra) = if 0 < ra then 1 else 0 := by
  unfold sleepIf
  split <;> rfl

theorem countGets_failEvsB (ra : Nat) (url tmp : String) (fs : List String) :
    countGets (failEvsB ra url tmp fs) = 1 := by
  simp [failEvsB, countGets_cons_get, countGets_append, countGets_remEvs, countGets_sleepIf]

theorem countGets_failEvsA (ra : Nat) (url tmp : String) (fs : List String) :
    countGets (failEvsA ra url tmp fs) = 1 := by
  simp [failEvsA, countGets_cons_get, countGets_cons_createTmp, countGets_append,
    countGets_remEvs, countGets_sleepIf]

theorem countSleeps_failEvsB (ra : Nat) (url tmp : String) (fs : List String) :
    countSleeps (failEvsB ra url tmp fs) = if 0 < ra then 1 else 0 := by
  simp [failEvsB, countSleeps_cons_get, countSleeps_append, countSleeps_remEvs,
    countSleeps_sleepIf]

theorem countSleeps_failEvsA (ra : Nat) (url tmp : String) (fs : List String) :
    countSleeps (failEvsA ra url tmp fs) = if 0 < ra then 1 else 0 := by
  simp [failEvsA, countSleeps_cons_get, countSleeps_cons_createTmp, countSleeps_append,
    countSleeps_remEvs, countSleeps_sleepIf]

theorem mem_fsRemove (q p : String) (fs : List String) :
    q ∈ fsRemove p fs ↔ q ∈ fs ∧ q ≠ p := by
  simp [fsRemove]

theorem not_mem_fsRemove (p : String) (fs : List String) : p ∉ fsRemove p fs := by
  simp [fsRemove]

theorem fsRemove_fsRemove (p : String) (fs : List String) :
    fsRemove p (fsRemove p fs) = fsRemove p fs := by
  simp [fsRemove, List.filter_filter]

theorem fsRemove_fsInsert (p : String) (fs : List String) :
    fsRemove p (fsInsert p fs) = fsRemove p fs := by
  unfold fsInsert
  split
  · rfl
  · simp [fsRemove, List.filter_cons]

/-! ### The all-fail behaviour of the download retry loop -/

theorem downloadLoop_succ_failB {outs : Nat → AttemptRes} {ra : Nat} {url tmp target : String}
    {l attempt : Nat} {fs : List String} {e : AttemptError}
    (houts : outs (attempt + 1) = AttemptRes.failBeforeTmp e) (hl : l ≠ 0) :
    downloadLoop outs ra url tmp target (l + 1) attempt fs =
      (failEvsB ra url tmp fs ++ Ev.sleep ::
          (downloadLoop outs ra url tmp target l (attempt + 1) (fsRemove tmp fs)).1,
        (downloadLoop outs ra url tmp target l (attempt + 1) (fsRemove tmp fs)).2.1,
        (downloadLoop outs ra url tmp target l (attempt + 1) (fsRemove tmp fs)).2.2) := by
  conv_lhs => unfold downloadLoop
  simp [houts, hl]

theorem downloadLoop_succ_failA {outs : Nat → AttemptRes} {ra : Nat} {url tmp target : String}
    {l attempt : Nat} {fs : List String} {e : AttemptError}
    (houts : outs (attempt + 1) = AttemptRes.failAfterTmp e) (hl : l ≠ 0) :
    downloadLoop outs ra url tmp target (l + 1) attempt fs =
      (failEvsA ra url tmp fs ++ Ev.sleep ::
          (downloadLoop outs ra url tmp target l (attempt + 1)
            (fsRemove tmp (fsInsert tmp fs))).1,
        (downloadLoop outs ra url tmp target l (attempt + 1)
          (fsRemove tmp (fsInsert tmp fs))).2.1,
        (downloadLoop outs ra url tmp target l (attempt + 1)
          (fsRemove tmp (fsInsert tmp fs))).2.2) := by
  conv_lhs => unfold downloadLoop
  simp [houts, hl]

theorem downloadLoop_all_fail (outs : Nat → AttemptRes) (ra : Nat) (url tmp target : String)
    (hfail : ∀ i, outs i ≠ AttemptRes.success) :
    ∀ l attempt fs,
      countGets (downloadLoop outs ra url tmp target (l + 1) attempt fs).1 = l + 1 ∧
      countSleeps (downloadLoop outs ra url tmp target (l + 1) attempt fs).1 =
        (if 0 < ra then l + 1 else 0) + l ∧
      (downloadLoop outs ra url tmp target (l + 1) attempt fs).2.2 =
        DlOutcome.failed (errOf (outs (attempt + (l + 1)))) ∧
      (downloadLoop outs ra url tmp target (l + 1) attempt fs).2.1 = fsRemove tmp fs := by
  intro l
  induction l with
  | zero =>
    intro attempt fs
    cases houts : outs (attempt + 1) with
    | success => exact absurd houts (hfail (attempt + 1))
    | failBeforeTmp e =>
      simp [downloadLoop, houts, countGets_failEvsB, countSleeps_failEvsB, errOf]
    | failAfterTmp e =>
      simp [downloadLoop, houts, countGets_failEvsA, countSleeps_failEvsA, errOf,
        fsRemove_fsInsert]
  | succ l ih =>
    intro attempt fs
    cases houts : outs (attempt + 1) with
    | success => exact absurd houts (hfail (attempt + 1))
    | failBeforeTmp e =>
      obtain ⟨ih1, ih2, ih3, ih4⟩ := ih (attempt + 1) (fsRemove tmp fs)
      have harith : attempt + 1 + (l + 1) = attempt + (l + 1 + 1) := by omega
      rw [downloadLoop_succ_failB houts (Nat.succ_ne_zero l)]
      refine ⟨?_, ?_, ?_, ?_⟩
      · simp only [countGets_append, countGets_failEvsB, countGets_cons_sleep, ih1]
        omega
      · simp only [countSleeps_append, countSleeps_failEvsB, countSleeps_cons_sleep, ih2]
        by_cases hra : 0 < ra <;> simp [hra] <;> omega
      · simpa [harith] using ih3
      · simpa [fsRemove_fsRemove] using ih4
    | failAfterTmp e =>
      obtain ⟨ih1, ih2, ih3, ih4⟩ := ih (attempt + 1) (fsRemove tmp (fsInsert tmp fs))
      have harith : attempt + 1 + (l + 1) = attempt + (l + 1 + 1) := by omega
      rw [downloadLoop_succ_failA houts (Nat.succ_ne_zero l)]
      refine ⟨?_, ?_, ?_, ?_⟩
      · simp only [countGets_append, countGets_failEvsA, countGets_cons_sleep, ih1]
        omega
      · simp only [countSleeps_append, countSleeps_failEvsA, countSleeps_cons_sleep, ih2]
        by_cases hra : 0 < ra <;> simp [hra] <;> omega
      · simpa [harith] using ih3
      · simpa [fsRemove_fsRemove, fsRemove_fsInsert] using ih4

theorem countGets_cons_check (p : String) (t : List Ev) :
    countGets (Ev.checkExists p :: t) = countGets t := by
  simp [countGets, List.countP_cons]

theorem countSleeps_cons_check (p : String) (t : List Ev) :
    countSleeps (Ev.checkExists p :: t) = countSleeps t := by
  simp [countSleeps, List.countP_cons]

/-! ### Replay and sleep-position lemmas for C8 -/

theorem replayFs_append (fs : List String) (s t : List Ev) :
    replayFs fs (s ++ t) = replayFs (replayFs fs s) t := by
  simp [replayFs, List.foldl_append]

theorem fsRemove_of_not_mem (p : String) (fs : List String) (h : p ∉ fs) :
    fsRemove p fs = fs := by
  unfold fsRemove
  apply List.filter_eq_self.mpr
  intro a ha
  simp only [ne_eq, decide_eq_true_eq]
  rintro rfl
  exact h ha

theorem replay_remEvs (tmp : String) (fs : List String) :
    replayFs fs (remEvs tmp fs) = fsRemove tmp fs := by
  unfold remEvs
  split
  · simp [replayFs, applyEv]
  · next h => simp [replayFs, fsRemove_of_not_mem tmp fs h]

theorem replay_sleepIf (g : List String) (ra : Nat) : replayFs g (sleepIf ra) = g := by
  unfold sleepIf
  split <;> simp [replayFs, applyEv]

theorem tmpAbsent_nil (tmp : String) (fs : List String) : tmpAbsentAtSleeps tmp fs [] := by
  intro k hk
  simp at hk

theorem tmpAbsent_of_noSleep {tmp : String} {fs : List String} {t : List Ev}
    (h : Ev.sleep ∉ t) : tmpAbsentAtSleeps tmp fs t := by
  intro k hk hs
  exact absurd (hs ▸ List.getElem_mem ..) h

theorem tmpAbsent_append {tmp : String} {fs : List String} {s t : List Ev}
    (h1 : tmpAbsentAtSleeps tmp fs s) (h2 : tmpAbsentAtSleeps tmp (replayFs fs s) t) :
    tmpAbsentAtSleeps tmp fs (s ++ t) := by
  intro k hk hsl
  rw [List.take_append_eq_append_take]
  by_cases hlt : k < s.length
  · rw [List.getElem_append_left hlt] at hsl
    have hz : k - s.length = 0 := by omega
    rw [hz]
    simpa using h1 k hlt hsl
  · push_neg at hlt
    rw [List.getElem_append_right hlt] at hsl
    rw [List.length_append] at hk
    have hk2 : k - s.length < t.length := by omega
    have htake : s.take k = s := List.take_of_length_le (by omega)
    rw [htake, replayFs_append]
    exact h2 (k - s.length) hk2 hsl

theorem tmpAbsent_sleepIf {tmp : String} {g : List String} (h : tmp ∉ g) (ra : Nat) :
    tmpAbsentAtSleeps tmp g (sleepIf ra) := by
  unfold sleepIf
  split
  · intro k hk hs
    have hz : k = 0 := by simpa using hk
    subst hz
    simpa [replayFs] using h
  · exact tmpAbsent_nil tmp g

theorem tmpAbsent_single_sleep {tmp : String} {g : List String} (h : tmp ∉ g) :
    tmpAbsentAtSleeps tmp g [Ev.sleep] := by
  intro k hk hs
  have hz : k = 0 := by simpa using hk
  subst hz
  simpa [replayFs] using h

theorem tmpAbsent_failEvsB (ra : Nat) (url tmp : String) (fs : List String) :
    tmpAbsentAtSleeps tmp fs (failEvsB ra url tmp fs) := by
  show tmpAbsentAtSleeps tmp fs ([Ev.httpGet url] ++ (remEvs tmp fs ++ sleepIf ra))
  apply tmpAbsent_append (tmpAbsent_of_noSleep (by simp))
  have hrep : replayFs fs [Ev.httpGet url] = fs := rfl
  rw [hrep]
  apply tmpAbsent_append (tmpAbsent_of_noSleep ?_)
  · rw [replay_remEvs]
    exact tmpAbsent_sleepIf (not_mem_fsRemove tmp fs) ra
  · unfold remEvs
    split <;> simp

theorem replay_failEvsB (ra : Nat) (url tmp : String) (fs : List String) :
    replayFs fs (failEvsB ra url tmp fs) = fsRemove tmp fs := by
  show replayFs fs ([Ev.httpGet url] ++ (remEvs tmp fs ++ sleepIf ra)) = _
  rw [replayFs_append, replayFs_append]
  have hrep : replayFs fs [Ev.httpGet url] = fs := rfl
  rw [hrep, replay_remEvs, replay_sleepIf]

theorem tmpAbsent_failEvsA (ra : Nat) (url tmp : String) (fs : List String) :
    tmpAbsentAtSleeps tmp fs (failEvsA ra url tmp fs) := by
  show tmpAbsentAtSleeps tmp fs
    ([Ev.httpGet url, Ev.createTmp tmp] ++ (remEvs tmp (fsInsert tmp fs) ++ sleepIf ra))
  apply tmpAbsent_append (tmpAbsent_of_noSleep (by simp))
  have hrep : replayFs fs [Ev.httpGet url, Ev.createTmp tmp] = fsInsert tmp fs := rfl
  rw [hrep]
  apply tmpAbsent_append (tmpAbsent_of_noSleep ?_)
  · rw [replay_remEvs]
    exact tmpAbsent_sleepIf (not_mem_fsRemove tmp (fsInsert tmp fs)) ra
  · unfold remEvs
    split <;> simp

theorem replay_failEvsA (ra : Nat) (url tmp : String) (fs : List String) :
    replayFs fs (failEvsA ra url tmp fs) = fsRemove tmp (fsInsert tmp fs) := by
  show replayFs fs
    ([Ev.httpGet url, Ev.createTmp tmp] ++ (remEvs tmp (fsInsert tmp fs) ++ sleepIf ra)) = _
  rw [replayFs_append, replayFs_append]
  have hrep : replayFs fs [Ev.httpGet url, Ev.createTmp tmp] = fsInsert tmp fs := rfl
  rw [hrep, replay_remEvs, replay_sleepIf]

theorem rename_not_mem_failEvsB (ra : Nat) (url tmp a b : String) (fs : List String) :
    Ev.renameFile a b ∉ failEvsB ra url tmp fs := by
  unfold failEvsB remEvs sleepIf
  split <;> split <;> simp

theorem rename_not_mem_failEvsA (ra : Nat) (url tmp a b : String) (fs : List String) :
    Ev.renameFile a b ∉ failEvsA ra url tmp fs := by
  unfold failEvsA remEvs sleepIf
  split <;> split <;> simp

/-- The sleep-ordering invariant holds for every run of the retry loop,
failing or not: the handler removes the temporary file (lines 147-148)
before it sleeps (lines 154 and 158). -/
theorem downloadLoop_tmpAbsent (outs : Nat → AttemptRes) (ra : Nat) (url tmp target : String) :
    ∀ left attempt fs,
      tmpAbsentAtSleeps tmp fs (downloadLoop outs ra url tmp target left attempt fs).1 := by
  intro left
  induction left with
  | zero =>
    intro attempt fs
    cases houts : outs (attempt + 1) with
    | success =>
      simp only [downloadLoop, houts]
      exact tmpAbsent_of_noSleep (by simp)
    | failBeforeTmp e =>
      simp only [downloadLoop, houts]
      exact tmpAbsent_failEvsB ra url tmp fs
    | failAfterTmp e =>
      simp only [downloadLoop, houts]
      exact tmpAbsent_failEvsA ra url tmp fs
  | succ l ih =>
    intro attempt fs
    cases houts : outs (attempt + 1) with
    | success =>
      simp only [downloadLoop, houts]
      exact tmpAbsent_of_noSleep (by simp)
    | failBeforeTmp e =>
      by_cases hl : l = 0
      · subst hl
        simp only [downloadLoop, houts, if_pos rfl]
        exact tmpAbsent_failEvsB ra url tmp fs
      · rw [downloadLoop_succ_failB houts hl]
        simp only
        apply tmpAbsent_append (tmpAbsent_failEvsB ra url tmp fs)
        rw [replay_failEvsB, ← List.singleton_append]
        apply tmpAbsent_append (tmpAbsent_single_sleep (not_mem_fsRemove tmp fs))
        have hrep : replayFs (fsRemove tmp fs) [Ev.sleep] = fsRemove tmp fs := rfl
        rw [hrep]
        exact ih (attempt + 1) (fsRemove tmp fs)
    | failAfterTmp e =>
      by_cases hl : l = 0
      · subst hl
        simp only [downloadLoop, houts, if_pos rfl]
        exact tmpAbsent_failEvsA ra url tmp fs
      · rw [downloadLoop_succ_failA houts hl]
        simp only
        apply tmpAbsent_append (tmpAbsent_failEvsA ra url tmp fs)
        rw [replay_failEvsA, ← List.singleton_append]
        apply tmpAbsent_append
          (tmpAbsent_single_sleep (not_mem_fsRemove tmp (fsInsert tmp fs)))
        have hrep : replayFs (fsRemove tmp (fsInsert tmp fs)) [Ev.sleep] =
            fsRemove tmp (fsInsert tmp fs) := rfl
        rw [hrep]
        exact ih (attempt + 1) (fsRemove tmp (fsInsert tmp fs))

/-- A rename event in a loop trace implies the loop completed: the rename
at line 160 runs only after `break`, i.e. after a successful attempt. -/
theorem downloadLoop_rename_completed (outs : Nat → AttemptRes) (ra : Nat)
    (url tmp target : String) :
    ∀ left attempt fs,
      Ev.renameFile tmp target ∈ (downloadLoop outs ra url tmp target left attempt fs).1 →
      (downloadLoop outs ra url tmp target left attempt fs).2.2 = DlOutcome.completed := by
  intro left
  induction left with
  | zero =>
    intro attempt fs h
    cases houts : outs (attempt + 1) with
    | success => simp [downloadLoop, houts]
    | failBeforeTmp e =>
      simp only [downloadLoop, houts] at h
      exact absurd h (rename_not_mem_failEvsB ra url tmp tmp target fs)
    | failAfterTmp e =>
      simp only [downloadLoop, houts] at h
      exact absurd h (rename_not_mem_failEvsA ra url tmp tmp target fs)
  | succ l ih =>
    intro attempt fs h
    cases houts : outs (attempt + 1) with
    | success => simp [downloadLoop, houts]
    | failBeforeTmp e =>
      by_cases hl : l = 0
      · subst hl
        simp only [downloadLoop, houts, if_pos rfl] at h
        exact absurd h (rename_not_mem_failEvsB ra url tmp tmp target fs)
      · rw [downloadLoop_succ_failB houts hl] at h ⊢
        simp only at h ⊢
        rcases List.mem_append.mp h with h | h
        · exact absurd h (rename_not_mem_failEvsB ra url tmp tmp target fs)
        · rcases List.mem_cons.mp h with h | h
          · exact absurd h (by simp)
          · exact ih (attempt + 1) (fsRemove tmp fs) h
    | failAfterTmp e =>
      by_cases hl : l = 0
      · subst hl
        simp only [downloadLoop, houts, if_pos rfl] at h
        exact absurd h (rename_not_mem_failEvsA ra url tmp tmp target fs)
      · rw [downloadLoop_succ_failA houts hl] at h ⊢
        simp only at h ⊢
        rcases List.mem_append.mp h with h | h
        · exact absurd h (rename_not_mem_failEvsA ra url tmp tmp target fs)
        · rcases List.mem_cons.mp h with h | h
          · exact absurd h (by simp)
          · exact ih (attempt + 1) (fsRemove tmp (fsInsert tmp fs)) h

/-- All-fail outcome and filesystem when `retry_attempts = 0` (single
attempt, immediate re-raise). -/
theorem downloadLoop_zero_all_fail (outs : Nat → AttemptRes) (ra : Nat)
    (url tmp target : String) (attempt : Nat) (fs : List String)
    (hfail : ∀ i, outs i ≠ AttemptRes.success) :
    (downloadLoop outs ra url tmp target 0 attempt fs).2.2 =
      DlOutcome.failed (errOf (outs (attempt + 1))) ∧
    (downloadLoop outs ra url tmp target 0 attempt fs).2.1 = fsRemove tmp fs := by
  cases houts : outs (attempt + 1) with
  | success => exact absurd houts (hfail (attempt + 1))
  | failBeforeTmp e => simp [downloadLoop, houts, errOf]
  | failAfterTmp e => simp [downloadLoop, houts, errOf, fsRemove_fsInsert]

/-! ### Claims C1, C7, C4 -/

/-- C1, counterexample: with `retry_attempts = 1` and a single failing
attempt, the claim predicts `N - 1 = 0` sleeps, but the handler at lines
149-154 sleeps once (before the exhaustion check at line 156) even though
no attempt follows, so the run sleeps after the last failure. -/
theorem c1_sleep_count_counterexample :
    ¬ (countSleeps (downloadFile false 1 (fun _ => AttemptRes.failBeforeTmp AttemptError.timeout)
        "dest" ⟨"gid/", "dt", "v", "h", "1", "u", "f.xml"⟩ []).1 = 1 - 1) := by
  decide

/-- C1 (amended): for `retry_attempts = N >= 1` and a non-skipped file
download whose every attempt fails, exactly `N` attempts (HTTP GETs)
occur, exactly `2*N - 1` sleeps occur (one after every failure, including
the last, plus one more before each reattempt), and the error finally
raised is the failure of the last attempt (`raise` at line 157 re-raises
the current exception). -/
theorem c1_retry_accounting (N : Nat) (outs : Nat → AttemptRes) (refresh : Bool)
    (dest : String) (f : FileDesc) (fs : List String)
    (hN : 1 ≤ N) (hfail : ∀ i, outs i ≠ AttemptRes.success)
    (hrun : refresh = true ∨ pathJoin dest f.file ∉ fs) :
    countGets (downloadFile refresh N outs dest f fs).1 = N ∧
    countSleeps (downloadFile refresh N outs dest f fs).1 = 2 * N - 1 ∧
    (downloadFile refresh N outs dest f fs).2.2 = DlOutcome.failed (errOf (outs N)) := by
  obtain ⟨l, rfl⟩ : ∃ l, N = l + 1 := ⟨N - 1, by omega⟩
  have hcond : (decide (pathJoin dest f.file ∈ fs) && !refresh) = false := by
    rcases hrun with h | h
    · simp [h]
    · simp [h]
  obtain ⟨h1, h2, h3, _⟩ :=
    downloadLoop_all_fail outs (l + 1) f.url (pathJoin dest f.file ++ ".part")
      (pathJoin dest f.file) hfail l 0 fs
  simp only [downloadFile, hcond, Bool.false_eq_true, if_false,
    countGets_cons_check, countSleeps_cons_check]
  refine ⟨h1, ?_, ?_⟩
  · rw [h2]
    simp
    omega
  · simpa using h3

/-- C7: when the destination file already exists and `refresh` is false,
the loop body `continue`s at line 98: the outcome is a skip, the only
event is the existence check (no HTTP GET, no temporary file, no rename),
and the filesystem is unchanged. -/
theorem c7_skip_existing (ra : Nat) (outs : Nat → AttemptRes) (dest : String) (f : FileDesc)
    (fs : List String) (hex : pathJoin dest f.file ∈ fs) :
    downloadFile false ra outs dest f fs =
      ([Ev.checkExists (pathJoin dest f.file)], fs, DlOutcome.skipped) := by
  simp [downloadFile, hex]

theorem c7_skip_existing_witness :
    downloadFile false 3 (fun _ => AttemptRes.success) "d"
        ⟨"gid/", "dt", "v", "h", "1", "u", "a.xml"⟩ ["d/a.xml"] =
      ([Ev.checkExists (pathJoin "d" "a.xml")], ["d/a.xml"], DlOutcome.skipped) :=
  c7_skip_existing 3 (fun _ => AttemptRes.success) "d"
    ⟨"gid/", "dt", "v", "h", "1", "u", "a.xml"⟩ ["d/a.xml"] (by decide)

/-- C4, counterexample: with two descriptors and a terminal download
failure on the first (`retry_attempts = 0`), the second descriptor is
never attempted — no HTTP GET to its URL and not even its existence
check — because the `raise` at line 157 propagates out of the `for` loop
of `Scraper.download`; the run ends with the first descriptor's error. -/
theorem c4_abort_counterexample :
    Ev.httpGet "u2" ∉ (downloadAll false 0 (fun _ _ => AttemptRes.failBeforeTmp
        AttemptError.transport) "d" 0
      [⟨"g1/", "dt", "v", "h", "1", "u1", "f1.xml"⟩,
       ⟨"g2/", "dt", "v", "h", "2", "u2", "f2.xml"⟩] []).1 ∧
    Ev.checkExists (pathJoin "d" "f2.xml") ∉ (downloadAll false 0
      (fun _ _ => AttemptRes.failBeforeTmp AttemptError.transport) "d" 0
      [⟨"g1/", "dt", "v", "h", "1", "u1", "f1.xml"⟩,
       ⟨"g2/", "dt", "v", "h", "2", "u2", "f2.xml"⟩] []).1 ∧
    (downloadAll false 0 (fun _ _ => AttemptRes.failBeforeTmp AttemptError.transport) "d" 0
      [⟨"g1/", "dt", "v", "h", "1", "u1", "f1.xml"⟩,
       ⟨"g2/", "dt", "v", "h", "2", "u2", "f2.xml"⟩] []).2.2 =
      some AttemptError.transport := by
  decide

/-- C4 (amended): a terminal (retry-exhausted) download failure on one
descriptor aborts the whole run: whatever descriptors remain, the run's
trace and filesystem are exactly those of the failing descriptor and the
error is surfaced; the remaining descriptors contribute nothing. -/
theorem c4_terminal_failure_aborts (refresh : Bool) (ra : Nat) (outs : Nat → Nat → AttemptRes)
    (dest : String) (i : Nat) (f : FileDesc) (rest : List FileDesc) (fs : List String)
    (e : AttemptError)
    (hfail : (downloadFile refresh ra (outs i) dest f fs).2.2 = DlOutcome.failed e) :
    downloadAll refresh ra outs dest i (f :: rest) fs =
      ((downloadFile refresh ra (outs i) dest f fs).1,
        (downloadFile refresh ra (outs i) dest f fs).2.1, some e) := by
  simp [downloadAll, hfail]

theorem c4_terminal_failure_aborts_witness :
    downloadAll false 0 (fun _ _ => AttemptRes.failBeforeTmp AttemptError.transport) "d" 0
      [⟨"g1/", "dt", "v", "h", "1", "u1", "f1.xml"⟩,
       ⟨"g2/", "dt", "v", "h", "2", "u2", "f2.xml"⟩] [] =
      ((downloadFile false 0 (fun _ => AttemptRes.failBeforeTmp AttemptError.transport) "d"
          ⟨"g1/", "dt", "v", "h", "1", "u1", "f1.xml"⟩ []).1,
        (downloadFile false 0 (fun _ => AttemptRes.failBeforeTmp AttemptError.transport) "d"
          ⟨"g1/", "dt", "v", "h", "1", "u1", "f1.xml"⟩ []).2.1,
        some AttemptError.transport) :=
  c4_terminal_failure_aborts false 0 (fun _ _ => AttemptRes.failBeforeTmp AttemptError.transport)
    "d" 0 ⟨"g1/", "dt", "v", "h", "1", "u1", "f1.xml"⟩
    [⟨"g2/", "dt", "v", "h", "2", "u2", "f2.xml"⟩] [] AttemptError.transport (by decide)

theorem c1_retry_accounting_witness :
    countGets (downloadFile false 2 (fun _ => AttemptRes.failBeforeTmp AttemptError.transport)
        "d" ⟨"g/", "dt", "v", "h", "1", "u", "a.xml"⟩ []).1 = 2 ∧
    countSleeps (downloadFile false 2 (fun _ => AttemptRes.failBeforeTmp AttemptError.transport)
        "d" ⟨"g/", "dt", "v", "h", "1", "u", "a.xml"⟩ []).1 = 2 * 2 - 1 ∧
    (downloadFile false 2 (fun _ => AttemptRes.failBeforeTmp AttemptError.transport)
        "d" ⟨"g/", "dt", "v", "h", "1", "u", "a.xml"⟩ []).2.2 =
      DlOutcome.failed AttemptError.transport :=
  c1_retry_accounting 2 (fun _ => AttemptRes.failBeforeTmp AttemptError.transport) false "d"
    ⟨"g/", "dt", "v", "h", "1", "u", "a.xml"⟩ [] (by decide)
    (fun _ h => AttemptRes.noConfusion h) (Or.inr (by decide))

/-! ### Claim C8 -/

/-- C8: in a non-skipped download whose every attempt fails (timeout or
transport), the temporary `.part` file is deleted before every sleep
(and is absent at the end, i.e. before the re-raise); the final
filesystem contains the destination file exactly when it already did
before the run, and no rename event occurs; moreover, for any outcome
sequence, a rename (publication of the final file) in the trace implies
the download completed successfully. -/
theorem c8_cleanup_invariant (refresh : Bool) (ra : Nat) (outs : Nat → AttemptRes)
    (dest : String) (f : FileDesc) (fs : List String)
    (hfail : ∀ i, outs i ≠ AttemptRes.success)
    (hrun : refresh = true ∨ pathJoin dest f.file ∉ fs) :
    (pathJoin dest f.file ++ ".part") ∉ (downloadFile refresh ra outs dest f fs).2.1 ∧
    (pathJoin dest f.file ∈ (downloadFile refresh ra outs dest f fs).2.1 ↔
      pathJoin dest f.file ∈ fs) ∧
    Ev.renameFile (pathJoin dest f.file ++ ".part") (pathJoin dest f.file) ∉
      (downloadFile refresh ra outs dest f fs).1 ∧
    tmpAbsentAtSleeps (pathJoin dest f.file ++ ".part") fs
      (downloadFile refresh ra outs dest f fs).1 ∧
    (∀ outs2 : Nat → AttemptRes,
      Ev.renameFile (pathJoin dest f.file ++ ".part") (pathJoin dest f.file) ∈
          (downloadFile refresh ra outs2 dest f fs).1 →
        (downloadFile refresh ra outs2 dest f fs).2.2 = DlOutcome.completed) := by
  have hcond : (decide (pathJoin dest f.file ∈ fs) && !refresh) = false := by
    rcases hrun with h | h
    · simp [h]
    · simp [h]
  have hne : pathJoin dest f.file ≠ pathJoin dest f.file ++ ".part" := by
    intro h
    have hlen := congrArg String.length h
    simp [String.length_append] at hlen
    exact absurd hlen (by decide)
  have hfs : (downloadLoop outs ra f.url (pathJoin dest f.file ++ ".part")
      (pathJoin dest f.file) ra 0 fs).2.1 = fsRemove (pathJoin dest f.file ++ ".part") fs := by
    cases ra with
    | zero =>
      exact (downloadLoop_zero_all_fail outs 0 f.url (pathJoin dest f.file ++ ".part")
        (pathJoin dest f.file) 0 fs hfail).2
    | succ l =>
      exact (downloadLoop_all_fail outs (l + 1) f.url (pathJoin dest f.file ++ ".part")
        (pathJoin dest f.file) hfail l 0 fs).2.2.2
  have hout : (downloadLoop outs ra f.url (pathJoin dest f.file ++ ".part")
      (pathJoin dest f.file) ra 0 fs).2.2 ≠ DlOutcome.completed := by
    cases ra with
    | zero =>
      rw [(downloadLoop_zero_all_fail outs 0 f.url (pathJoin dest f.file ++ ".part")
        (pathJoin dest f.file) 0 fs hfail).1]
      exact fun h => DlOutcome.noConfusion h
    | succ l =>
      rw [(downloadLoop_all_fail outs (l + 1) f.url (pathJoin dest f.file ++ ".part")
        (pathJoin dest f.file) hfail l 0 fs).2.2.1]
      exact fun h => DlOutcome.noConfusion h
  simp only [downloadFile, hcond, Bool.false_eq_true, if_false]
  refine ⟨?_, ?_, ?_, ?_, ?_⟩
  · rw [hfs]
    exact not_mem_fsRemove _ fs
  · rw [hfs, mem_fsRemove]
    constructor
    · exact fun h => h.1
    · exact fun h => ⟨h, hne⟩
  · intro hmem
    rcases List.mem_cons.mp hmem with h | h
    · exact absurd h (by simp)
    · exact hout (downloadLoop_rename_completed outs ra f.url
        (pathJoin dest f.file ++ ".part") (pathJoin dest f.file) ra 0 fs h)
  · rw [← List.singleton_append]
    apply tmpAbsent_append (tmpAbsent_of_noSleep (by simp))
    have hrep : replayFs fs [Ev.checkExists (pathJoin dest f.file)] = fs := rfl
    rw [hrep]
    exact downloadLoop_tmpAbsent outs ra f.url (pathJoin dest f.file ++ ".part")
      (pathJoin dest f.file) ra 0 fs
  · intro outs2 hmem
    rcases List.mem_cons.mp hmem with h | h
    · exact absurd h (by simp)
    · exact downloadLoop_rename_completed outs2 ra f.url
        (pathJoin dest f.file ++ ".part") (pathJoin dest f.file) ra 0 fs h

theorem c8_cleanup_invariant_witness :
    (pathJoin "d" "a.xml" ++ ".part") ∉ (downloadFile true 1
      (fun _ => AttemptRes.failAfterTmp AttemptError.timeout) "d"
      ⟨"g/", "dt", "v", "h", "1", "u", "a.xml"⟩ ["d/a.xml"]).2.1 ∧
    (pathJoin "d" "a.xml" ∈ (downloadFile true 1
      (fun _ => AttemptRes.failAfterTmp AttemptError.timeout) "d"
      ⟨"g/", "dt", "v", "h", "1", "u", "a.xml"⟩ ["d/a.xml"]).2.1 ↔
      pathJoin "d" "a.xml" ∈ ["d/a.xml"]) ∧
    Ev.renameFile (pathJoin "d" "a.xml" ++ ".part") (pathJoin "d" "a.xml") ∉
      (downloadFile true 1 (fun _ => AttemptRes.failAfterTmp AttemptError.timeout) "d"
        ⟨"g/", "dt", "v", "h", "1", "u", "a.xml"⟩ ["d/a.xml"]).1 ∧
    tmpAbsentAtSleeps (pathJoin "d" "a.xml" ++ ".part") ["d/a.xml"]
      (downloadFile true 1 (fun _ => AttemptRes.failAfterTmp AttemptError.timeout) "d"
        ⟨"g/", "dt", "v", "h", "1", "u", "a.xml"⟩ ["d/a.xml"]).1 ∧
    (∀ outs2 : Nat → AttemptRes,
      Ev.renameFile (pathJoin "d" "a.xml" ++ ".part") (pathJoin "d" "a.xml") ∈
          (downloadFile true 1 outs2 "d"
            ⟨"g/", "dt", "v", "h", "1", "u", "a.xml"⟩ ["d/a.xml"]).1 →
        (downloadFile true 1 outs2 "d"
          ⟨"g/", "dt", "v", "h", "1", "u", "a.xml"⟩ ["d/a.xml"]).2.2 =
          DlOutcome.completed) :=
  c8_cleanup_invariant true 1 (fun _ => AttemptRes.failAfterTmp AttemptError.timeout) "d"
    ⟨"g/", "dt", "v", "h", "1", "u", "a.xml"⟩ ["d/a.xml"]
    (fun _ h => AttemptRes.noConfusion h) (Or.inl rfl)

/-! ### Embedding of the fetch retry loop of `GameScraper.files`
(src/scraper.py lines 192-219)

One attempt constructs `DirectoryParser(self.base_url, ...)`, which either
returns a parsed entry list (HTTP success), raises a
`requests.exceptions.RequestException` carrying a response (HTTP error
status), or raises one without a usable response (connection failure).
When the parser is constructed but `parser.entries` is empty, the code
raises `NotFoundError('No entries found', self.base_url)` — note that at
this point `parser` is already bound, so the `while parser is None` guard
no longer holds.  The handler sleeps when `retry_attempts > 0` and, when
`attempt >= retry_attempts`, re-raises: as
`NotFoundError("Specified url has not been found", e.response.url)` when
the error carries an HTTP 404 response, unchanged otherwise.  `left` is
`ra - attempt` as in `downloadLoop`. -/

inductive FetchRes
  | ok (entries : List String)
  | httpError (status : Nat) (url : String)
  | connError
deriving Repr, DecidableEq

inductive FilesError
  | notFound (message loc : String)
  | transportHttp (status : Nat) (url : String)
  | transportConn
deriving Repr, DecidableEq

inductive FilesOut
  | entriesGot (es : List String)
  | raised (e : FilesError)
deriving Repr, DecidableEq

inductive FEv
  | fetch
  | sleep
deriving Repr, DecidableEq

/-- The sleep at line 210, executed on every caught failure when
`retry_attempts > 0`. -/
def sleepIfF (ra : Nat) : List FEv :=
  if 0 < ra then [FEv.sleep] else []

def filesLoop (fetch : Nat → FetchRes) (ra : Nat) (baseUrl : String) :
    Nat → Nat → List FEv × FilesOut
  | 0, attempt =>
    match fetch (attempt + 1) with
    | .ok es =>
      if es.isEmpty then
        (FEv.fetch :: sleepIfF ra, .raised (.notFound "No entries found" baseUrl))
      else ([FEv.fetch], .entriesGot es)
    | .httpError st url =>
      (FEv.fetch :: sleepIfF ra,
        if st = 404 then .raised (.notFound "Specified url has not been found" url)
        else .raised (.transportHttp st url))
    | .connError => (FEv.fetch :: sleepIfF ra, .raised .transportConn)
  | left + 1, attempt =>
    match fetch (attempt + 1) with
    | .ok es =>
      if es.isEmpty then
        if left = 0 then
          (FEv.fetch :: sleepIfF ra, .raised (.notFound "No entries found" baseUrl))
        else
          (FEv.fetch :: sleepIfF ra, .entriesGot es)
      else ([FEv.fetch], .entriesGot es)
    | .httpError st url =>
      if left = 0 then
        (FEv.fetch :: sleepIfF ra,
          if st = 404 then .raised (.notFound "Specified url has not been found" url)
          else .raised (.transportHttp st url))
      else
        let r := filesLoop fetch ra baseUrl left (attempt + 1)
        (FEv.fetch :: (sleepIfF ra ++ r.1), r.2)
    | .connError =>
      if left = 0 then (FEv.fetch :: sleepIfF ra, .raised .transportConn)
      else
        let r := filesLoop fetch ra baseUrl left (attempt + 1)
        (FEv.fetch :: (sleepIfF ra ++ r.1), r.2)

/-- The whole `GameScraper.files` body: the fetch loop, then on loop exit
the descriptor building at lines 222-239 from whatever entries the bound
parser holds. -/
def filesRun (fetch : Nat → FetchRes) (ra : Nat) (baseUrl date : String) :
    List FEv × Except FilesError (List FileDesc) :=
  match filesLoop fetch ra baseUrl ra 0 with
  | (t, .raised e) => (t, .error e)
  | (t, .entriesGot es) => (t, .ok (filesOfEntries baseUrl date es))

def countFetches (t : List FEv) : Nat :=
  t.countP (fun e => match e with | .fetch => true | _ => false)

def countFSleeps (t : List FEv) : Nat :=
  t.countP (fun e => match e with | .sleep => true | _ => false)

/-! ### Claims C2 and C5 -/

/-- C2 (code bug): with `retry_attempts = 2` and every fetch returning an
HTTP success with zero entries, the claim (and the spec) require the
fetch to be retried up to 2 times and a `NotFound` to be surfaced; the
code instead performs exactly one attempt and one sleep and then returns
an empty descriptor list, because the `NotFoundError` raised for the
empty listing is caught, not re-raised while attempts remain, and the
`while parser is None` guard is already false (the parser object was
bound before the raise), so the loop exits with the empty listing. -/
theorem c2_empty_listing_not_retried :
    filesRun (fun _ => FetchRes.ok []) 2 "http://base/" "2015-05-07" =
      ([FEv.fetch, FEv.sleep], Except.ok ([] : List FileDesc)) := by
  rfl

/-- C5, counterexample: with `max_attempts = 2` and HTTP 404 on every
attempt, the claim predicts exactly 1 backoff sleep; the code sleeps
after every caught failure (line 210 runs before the exhaustion check at
line 213), so there are 2 sleeps, including one after the final failed
attempt. -/
theorem c5_sleep_count_counterexample :
    ¬ (countFSleeps (filesLoop (fun _ => FetchRes.httpError 404 "http://u/")
        2 "http://u/" 2 0).1 = 1) := by
  decide

/-- C5 (amended): with `max_attempts = 2` and every attempt failing with
HTTP 404, the fetch performs exactly 2 attempts with 2 sleeps (one after
each failed attempt, including the last) and raises `NotFound` carrying
the requested URL (`e.response.url`); with a terminal error that is not
an HTTP 404, the error propagates unchanged as a transport error. -/
theorem c5_notfound_reclassification (base url : String) (st : Nat) (hst : st ≠ 404) :
    filesLoop (fun _ => FetchRes.httpError 404 url) 2 base 2 0 =
      ([FEv.fetch, FEv.sleep, FEv.fetch, FEv.sleep],
        FilesOut.raised (FilesError.notFound "Specified url has not been found" url)) ∧
    (filesLoop (fun _ => FetchRes.httpError st url) 2 base 2 0).2 =
      FilesOut.raised (FilesError.transportHttp st url) := by
  constructor
  · rfl
  · simp [filesLoop, sleepIfF, hst]

theorem c5_notfound_reclassification_witness :
    filesLoop (fun _ => FetchRes.httpError 404 "http://u/") 2 "http://b/" 2 0 =
      ([FEv.fetch, FEv.sleep, FEv.fetch, FEv.sleep],
        FilesOut.raised (FilesError.notFound "Specified url has not been found" "http://u/")) ∧
    (filesLoop (fun _ => FetchRes.httpError 500 "http://u/") 2 "http://b/" 2 0).2 =
      FilesOut.raised (FilesError.transportHttp 500 "http://u/") :=
  c5_notfound_reclassification "http://b/" "http://u/" 500 (by decide)

/-! ### Claim C9: the `self.files` attribute rebinding -/

/-- The `files` attribute of a `GameScraper` instance: initially the
bound method inherited from the class; line 222 (`self.files = []`)
rebinds it to the computed list. -/
inductive FilesAttr
  | boundMethod
  | listVal (fs : List FileDesc)
deriving Repr, DecidableEq

structure GSState where
  filesAttr : FilesAttr
deriving Repr, DecidableEq

def initGSState : GSState := ⟨FilesAttr.boundMethod⟩

inductive PyCallError
  | notCallable
  | notIterable
deriving Repr, DecidableEq

/-- Evaluating `self.files()`: attribute lookup finds the instance
attribute when it exists (shadowing the class method); calling a list
raises `TypeError` (`notCallable`).  A successful call runs the body of
`GameScraper.files` (given an already-fetched listing `entries`), which
rebinds `self.files` to the descriptor list and returns it. -/
def callFiles (baseUrl date : String) (entries : List String) (st : GSState) :
    Except PyCallError (GSState × List FileDesc) :=
  match st.filesAttr with
  | .listVal _ => .error .notCallable
  | .boundMethod =>
    let fs := filesOfEntries baseUrl date entries
    .ok (⟨FilesAttr.listVal fs⟩, fs)

/-- Evaluating `for file in self.files` (line 86): iterating the
attribute; a bound method is not iterable (`TypeError`), a list yields
its elements. -/
def downloadFilesAttr (st : GSState) : Except PyCallError (List FileDesc) :=
  match st.filesAttr with
  | .boundMethod => .error .notIterable
  | .listVal fs => .ok fs

/-- C9: the first `files()` call succeeds and rebinds the instance
attribute from the bound method to the computed descriptor list; a second
call through the instance fails (a list is not callable);
`Scraper.download` iterates the attribute, which fails before `files()`
has been called and yields exactly the computed list after it has been
called once. -/
theorem c9_files_attribute_rebinding (baseUrl date : String) (entries : List String) :
    ∃ st1 fs,
      callFiles baseUrl date entries initGSState = Except.ok (st1, fs) ∧
      fs = filesOfEntries baseUrl date entries ∧
      st1.filesAttr = FilesAttr.listVal fs ∧
      callFiles baseUrl date entries st1 = Except.error PyCallError.notCallable ∧
      downloadFilesAttr initGSState = Except.error PyCallError.notIterable ∧
      downloadFilesAttr st1 = Except.ok fs :=
  ⟨⟨FilesAttr.listVal (filesOfEntries baseUrl date entries)⟩,
    filesOfEntries baseUrl date entries, rfl, rfl, rfl, rfl, rfl, rfl⟩

/-! ### Claim C10: the progress byte counter -/

/-- Constant `CHUNK_SIZE = 16 * 1024` (line 50). -/
def CHUNK_SIZE : Nat := 16 * 1024

/-- The chunk loop at lines 131-136: for each chunk read, the chunk is
written to the file and `bytes_downloaded` is incremented by
`CHUNK_SIZE`, regardless of the chunk's actual length.  First component:
the `bytes_downloaded` counter driving `pbar.update`; second: the bytes
actually written. -/
def chunkLoop (chunks : List Nat) : Nat × Nat :=
  chunks.foldl (fun acc len => (acc.1 + CHUNK_SIZE, acc.2 + len)) (0, 0)

theorem chunkLoop_eq :
    ∀ (chunks : List Nat) (a b : Nat),
      chunks.foldl (fun acc len => (acc.1 + CHUNK_SIZE, acc.2 + len)) (a, b) =
        (a + chunks.length * CHUNK_SIZE, b + chunks.sum) := by
  intro chunks
  induction chunks with
  | nil => intro a b; simp
  | cons x t ih =>
    intro a b
    simp only [List.foldl_cons, List.length_cons, List.sum_cons]
    rw [ih]
    simp only [Prod.mk.injEq]
    constructor <;> ring

/-- C10: after `k` chunks are written, the counter driving the progress
callback equals `k * CHUNK_SIZE` regardless of the chunks' actual sizes;
it is a multiple of 16 KiB, at least the number of bytes actually written
(each chunk read returns at most `CHUNK_SIZE` bytes), and strictly
greater whenever the final chunk is shorter than `CHUNK_SIZE`. -/
theorem c10_progress_counter (chunks : List Nat)
    (hle : ∀ l ∈ chunks, l ≤ CHUNK_SIZE) :
    (chunkLoop chunks).1 = chunks.length * CHUNK_SIZE ∧
    (chunkLoop chunks).1 % CHUNK_SIZE = 0 ∧
    (chunkLoop chunks).2 ≤ (chunkLoop chunks).1 ∧
    (∀ hne : chunks ≠ [], chunks.getLast hne < CHUNK_SIZE →
      (chunkLoop chunks).2 < (chunkLoop chunks).1) := by
  have hck : chunkLoop chunks = (chunks.length * CHUNK_SIZE, chunks.sum) := by
    have h := chunkLoop_eq chunks 0 0
    simpa [chunkLoop] using h
  rw [hck]
  have hsum : ∀ (l : List Nat), (∀ x ∈ l, x ≤ CHUNK_SIZE) →
      l.sum ≤ l.length * CHUNK_SIZE := by
    intro l hl
    have h := List.sum_le_card_nsmul l CHUNK_SIZE hl
    simpa [smul_eq_mul] using h
  refine ⟨rfl, by simp [Nat.mul_mod_left], hsum chunks hle, ?_⟩
  intro hne hlast
  have hdecomp := List.dropLast_append_getLast hne
  have h1 : chunks.dropLast.sum ≤ chunks.dropLast.length * CHUNK_SIZE :=
    hsum chunks.dropLast (fun x hx => hle x (List.dropLast_subset chunks hx))
  conv_lhs => rw [← hdecomp]
  conv_rhs => rw [← hdecomp]
  rw [List.sum_append, List.length_append]
  simp only [List.sum_cons, List.sum_nil, List.length_cons, List.length_nil]
  have h2 := Nat.add_lt_add_of_le_of_lt h1 hlast
  calc chunks.dropLast.sum + (chunks.getLast hne + 0)
      = chunks.dropLast.sum + chunks.getLast hne := by omega
    _ < chunks.dropLast.length * CHUNK_SIZE + CHUNK_SIZE := h2
    _ = (chunks.dropLast.length + (0 + 1)) * CHUNK_SIZE := by ring

theorem c10_progress_counter_witness :
    (chunkLoop [16384, 16384, 8192]).1 = [16384, 16384, 8192].length * CHUNK_SIZE ∧
    (chunkLoop [16384, 16384, 8192]).1 % CHUNK_SIZE = 0 ∧
    (chunkLoop [16384, 16384, 8192]).2 ≤ (chunkLoop [16384, 16384, 8192]).1 ∧
    (∀ hne : [16384, 16384, 8192] ≠ ([] : List Nat),
      [16384, 16384, 8192].getLast hne < CHUNK_SIZE →
      (chunkLoop [16384, 16384, 8192]).2 < (chunkLoop [16384, 16384, 8192]).1) :=
  c10_progress_counter [16384, 16384, 8192] (by decide)

end GameDayScraper


